import Mathlib

/-!
Verification development for the collectionview library (TypeScript).

The shallow embedding below translates the classes of the source file
(CollectionView, CollectionViewFilter, CollectionViewFilterCollection,
CollectionViewSortingDescriptor, CollectionViewSortingDescriptorCollection)
into plain Lean definitions.  JavaScript runtime behaviour is made explicit:

* fields declared without an initializer (such as the private field
  holding the sorted stage) are modelled as Option values, with none
  standing for the JavaScript value undefined;
* a thrown exception is modelled by returning the receiver state paired
  with some error, since in JavaScript the mutations already performed on
  the object persist after a throw;
* Array.prototype.sort with a comparator is modelled as a stable
  insertion sort (ECMAScript requires sort to be stable); calling sort
  with an undefined comparator compares the string forms of the elements,
  which the model takes from an explicit toStr parameter;
* Array.prototype.slice and Array.prototype.filter are modelled on lists.
-/

namespace CollectionViewModel

/-- JavaScript errors thrown by the library: typeError models the runtime
TypeError raised when a member of undefined is accessed, jsError models
an explicit throw of new Error(message). -/
inductive JsError where
  | typeError (message : String)
  | jsError (message : String)
  deriving DecidableEq, Repr

/-- Message of the TypeError raised by applyPaging when the sorted stage
is still undefined (undefined.slice). -/
def sliceUndefinedMessage : String := "Cannot read property slice of undefined"

/-- Message of the TypeError raised by applySorting when the sorted stage
is still undefined (undefined.sort). -/
def sortUndefinedMessage : String := "Cannot read property sort of undefined"

/-- Message of the TypeError raised by the canNavigateToNextPage getter
when the paged stage is still undefined (undefined.length). -/
def lengthUndefinedMessage : String := "Cannot read property length of undefined"

/-- Message of the Error thrown by the pageSize setter (source line 184). -/
def pageSizeErrorMessage : String := "pageSize must be greater than or equal one."

/-- Message of the Error thrown by the pageIndex setter (source line 197). -/
def pageIndexErrorMessage : String := "pageIndex must be greater than or equal zero."

/-- Message of the Error thrown by goToNextPage (source line 238). -/
def nextPageErrorMessage : String := "Cant navigate to next page."

/-- export enum SortDirection (source lines 521-524). -/
inductive SortDirection where
  | Ascending
  | Descending
  deriving DecidableEq, Repr

/-- The Comparable union type of the source (string, number, boolean or
Date); it is only the codomain of key selectors, which the source stores
but never evaluates, so Date is carried as its numeric timestamp. -/
inductive JsComparable where
  | str (s : String)
  | num (n : Int)
  | boolv (b : Bool)
  | date (ms : Int)

/-- The selector stored by CollectionViewSortingDescriptor: either a
property name (string) or a one-argument key-extracting function. -/
inductive SortSelector (T : Type) where
  | propertyName (name : String)
  | keySelector (f : T → JsComparable)

/-- export class CollectionViewSortingDescriptor (source lines 381-433).
The constructor assigns selector when given a string or a one-argument
function, and assigns comparer only when given a two-argument function;
whichever of the two is not assigned stays undefined (none).  Note that
the source never derives comparer from selector and never consults
direction or propertyComparer when sorting. -/
structure SortDescriptor (T : Type) where
  selector : Option (SortSelector T)
  comparer : Option (T → T → Int)
  direction : SortDirection
  propertyComparer : Option (JsComparable → JsComparable → Int)

/-- The argument shapes accepted by
CollectionViewSortingDescriptorCollection.add (source lines 459-485):
a property name, a one-argument key selector, a two-argument comparer,
or a pre-built descriptor object. -/
inductive SortAddArg (T : Type) where
  | propertyName (name : String)
  | keySelector (f : T → JsComparable)
  | comparerFn (c : T → T → Int)
  | descriptor (d : SortDescriptor T)

/-- The descriptor built by CollectionViewSortingDescriptorCollection.add
(source lines 463-480): a descriptor argument is used as-is (the direction
argument is ignored), a string or one-argument function goes through the
CollectionViewSortingDescriptor constructor with the direction argument
(defaulting to Ascending when absent), and a two-argument function is
passed to the constructor alone, so its direction is always Ascending.
In every non-comparer case the comparer field is left undefined. -/
def mkSortDescriptor {T : Type} (arg : SortAddArg T) (direction : Option SortDirection) :
    SortDescriptor T :=
  match arg with
  | .descriptor d => d
  | .propertyName name =>
      { selector := some (.propertyName name)
        comparer := none
        direction := direction.getD .Ascending
        propertyComparer := none }
  | .keySelector f =>
      { selector := some (.keySelector f)
        comparer := none
        direction := direction.getD .Ascending
        propertyComparer := none }
  | .comparerFn c =>
      { selector := none
        comparer := some c
        direction := .Ascending
        propertyComparer := none }

/-- export class CollectionViewFilter (source lines 285-309): a name and
a predicate. -/
structure ViewFilter (T : Type) where
  name : String
  predicate : T → Bool

/-- Stable insertion of x into l for the strict relation lt: x is placed
before the first element y with lt y x = false, so existing elements that
compare equal to x stay in front of the elements inserted later.  This is
the insertion step of the stable sort modelling Array.prototype.sort. -/
def sInsert {α : Type} (lt : α → α → Bool) (x : α) : List α → List α
  | [] => [x]
  | y :: ys => if lt y x then y :: sInsert lt x ys else x :: y :: ys

/-- Stable insertion sort: the model of Array.prototype.sort, which
ECMAScript specifies to be a stable sort.  Elements are inserted from the
last towards the first, so an element of the input ends up before every
later element the comparator ties it with. -/
def insSort {α : Type} (lt : α → α → Bool) : List α → List α
  | [] => []
  | x :: xs => sInsert lt x (insSort lt xs)

/-- The strict before relation a given sort pass uses, derived from a
descriptor exactly as applySorting does (source line 165): when the
descriptor holds a two-argument comparer c, element a sorts strictly
before b when c a b is negative; when the comparer field is undefined
(every selector-built descriptor), Array.prototype.sort falls back to
comparing the string forms of the elements, supplied here by toStr. -/
def descriptorLt {T : Type} (toStr : T → String) (d : SortDescriptor T) : T → T → Bool :=
  match d.comparer with
  | some c => fun a b => decide (c a b < 0)
  | none => fun a b => decide (toStr a < toStr b)

/-- One clamped bound of Array.prototype.slice: a negative index counts
from the end (clamped at zero via Int.toNat), a non-negative index is
clamped at the length. -/
def jsSliceBound (len : Nat) (i : Int) : Nat :=
  if i < 0 then ((len : Int) + i).toNat else min i.toNat len

/-- Array.prototype.slice start end: the elements from the clamped start
bound (inclusive) to the clamped end bound (exclusive). -/
def jsSlice {α : Type} (l : List α) (start stop : Int) : List α :=
  (l.take (jsSliceBound l.length stop)).drop (jsSliceBound l.length start)

/-- The state of a CollectionView instance (source lines 15-276).  The
three derived stages and their backing arrays have no initializer in the
source, hence the Option type with none for undefined.  handlerCount is
the number of handlers registered on the changed event of the view, and
events records the paged-view snapshot carried by each ChangeEvent that
raiseChanged delivered, in order. -/
structure ViewState (T : Type) where
  data : List T
  filteredView : Option (List T)
  sortedView : Option (List T)
  pagedView : Option (List T)
  pageSize : Int
  pageIndex : Int
  suppressFiltering : Bool
  suppressSorting : Bool
  suppressPaging : Bool
  filters : List (ViewFilter T)
  sorting : List (SortDescriptor T)
  handlerCount : Nat
  events : List (List T)

/-- The result of a mutating call: the (possibly partially mutated)
receiver state, paired with the exception the call threw, if any.
JavaScript exceptions do not roll back mutations already performed. -/
def Step (T : Type) : Type := ViewState T × Option JsError

/-- Sequencing of mutating calls: the continuation runs only when no
exception is pending, otherwise the exception propagates. -/
def Step.andThen {T : Type} (r : Step T) (f : ViewState T → Step T) : Step T :=
  match r with
  | (s, none) => f s
  | (s, some e) => (s, some e)

/-- private raiseChanged (source lines 246-252): returns immediately when
no handler is registered, otherwise constructs a ChangeEvent carrying the
current view (the paged stage) and invokes every handler; the model
records the delivered snapshot. -/
def raiseChanged {T : Type} (s : ViewState T) : ViewState T :=
  if s.handlerCount = 0 then s
  else { s with events := s.events ++ [s.pagedView.getD []] }

/-- public applyPaging (source lines 212-219): returns when paging is
suppressed; otherwise assigns the paged stage the slice of the sorted
stage from pageIndex*pageSize to (pageIndex+1)*pageSize and raises the
changed event.  When the sorted stage is still undefined the member
access undefined.slice throws a TypeError. -/
def applyPaging {T : Type} (s : ViewState T) : Step T :=
  if s.suppressPaging then (s, none)
  else
    match s.sortedView with
    | none => (s, some (JsError.typeError sliceUndefinedMessage))
    | some l =>
        let paged := jsSlice l (s.pageIndex * s.pageSize) ((s.pageIndex + 1) * s.pageSize)
        (raiseChanged { s with pagedView := some paged }, none)

/-- The descriptor loop of applySorting (source lines 164-165): for each
descriptor, the sorted stage is re-sorted in place by that descriptor's
comparer and re-assigned.  The sorted stage is never assigned from the
filtered stage first, so when it is undefined the member access
undefined.sort throws a TypeError; otherwise each pass is a full stable
re-sort of the current sorted stage. -/
def sortLoop {T : Type} (toStr : T → String) :
    List (SortDescriptor T) → ViewState T → Step T
  | [], s => (s, none)
  | d :: rest, s =>
      match s.sortedView with
      | none => (s, some (JsError.typeError sortUndefinedMessage))
      | some l =>
          sortLoop toStr rest { s with sortedView := some (insSort (descriptorLt toStr d) l) }

/-- public applySorting (source lines 160-168): returns when sorting is
suppressed; otherwise runs the descriptor loop over the current sorted
stage and then calls applyPaging. -/
def applySorting {T : Type} (toStr : T → String) (s : ViewState T) : Step T :=
  if s.suppressSorting then (s, none)
  else (sortLoop toStr s.sorting s).andThen applyPaging

/-- The filter fold of applyFilters (source lines 81-84): the filtered
stage starts as the raw data and each filter descriptor narrows it in
insertion order. -/
def filterRun {T : Type} (filters : List (ViewFilter T)) (data : List T) : List T :=
  filters.foldl (fun acc f => acc.filter f.predicate) data

/-- public applyFilters (source lines 77-88): returns when filtering is
suppressed; otherwise recomputes the filtered stage from the raw data,
then calls applySorting, then calls applyPaging a second time (the call
on source line 87, in addition to the call applySorting itself makes on
source line 167). -/
def applyFilters {T : Type} (toStr : T → String) (s : ViewState T) : Step T :=
  if s.suppressFiltering then (s, none)
  else
    ((applySorting toStr { s with filteredView := some (filterRun s.filters s.data) }).andThen
      applyPaging)

/-- public setData (source lines 37-40): replaces the raw data and calls
applyFilters. -/
def setData {T : Type} (toStr : T → String) (s : ViewState T) (d : List T) : Step T :=
  applyFilters toStr { s with data := d }

/-- The field initializers of CollectionView (source lines 31, 50, 57,
91, 97, 171, 178, 191, 244): empty raw data, all three stages undefined,
page size 10, page index 0, no suppression, empty descriptor
collections, no handlers, and for the model an empty event log. -/
def initState (T : Type) : ViewState T :=
  { data := []
    filteredView := none
    sortedView := none
    pagedView := none
    pageSize := 10
    pageIndex := 0
    suppressFiltering := false
    suppressSorting := false
    suppressPaging := false
    filters := []
    sorting := []
    handlerCount := 0
    events := [] }

/-- The constructor for a plain array argument (source lines 18-29):
field initializers run, the two descriptor-collection listeners are
installed (modelled by sortingAdd and the other mutators calling the
apply functions directly), and setData runs on the argument. -/
def construct {T : Type} (toStr : T → String) (d : List T) : Step T :=
  setData toStr (initState T) d

/-- public set pageSize (source lines 182-188): throws for a value below
one before assigning anything, otherwise assigns and calls applyPaging. -/
def setPageSize {T : Type} (s : ViewState T) (v : Int) : Step T :=
  if v < 1 then (s, some (JsError.jsError pageSizeErrorMessage))
  else applyPaging { s with pageSize := v }

/-- public set pageIndex (source lines 195-201): throws for a negative
value before assigning anything, otherwise assigns and calls
applyPaging. -/
def setPageIndex {T : Type} (s : ViewState T) (v : Int) : Step T :=
  if v < 0 then (s, some (JsError.jsError pageIndexErrorMessage))
  else applyPaging { s with pageIndex := v }

/-- public page (source lines 203-206): assigns pageSize then pageIndex
through the two validating setters. -/
def page {T : Type} (s : ViewState T) (pageIndex pageSize : Int) : Step T :=
  (setPageSize s pageSize).andThen (fun s2 => setPageIndex s2 pageIndex)

/-- public get canNavigateToNextPage (source lines 225-227): compares
(pageIndex + 1) * pageSize strictly against the length of the CURRENT
PAGED stage (not the sorted stage); reading length of an undefined paged
stage throws a TypeError. -/
def canNavigateToNextPage {T : Type} (s : ViewState T) : Except JsError Bool :=
  match s.pagedView with
  | none => .error (JsError.typeError lengthUndefinedMessage)
  | some l => .ok (decide ((s.pageIndex + 1) * s.pageSize < (l.length : Int)))

/-- public goToNextPage (source lines 236-241): throws when the
canNavigateToNextPage guard is false (or when reading the guard itself
throws), otherwise delegates to page with the incremented index and the
current page size. -/
def goToNextPage {T : Type} (s : ViewState T) : Step T :=
  match canNavigateToNextPage s with
  | .error e => (s, some e)
  | .ok false => (s, some (JsError.jsError nextPageErrorMessage))
  | .ok true => page s (s.pageIndex + 1) s.pageSize

/-- public add on CollectionViewSortingDescriptorCollection followed by
the changed notification (source lines 459-485 and the listener installed
on source line 22): the descriptor built from the argument is appended
and the view reacts by running applySorting. -/
def sortingAdd {T : Type} (toStr : T → String) (s : ViewState T)
    (arg : SortAddArg T) (direction : Option SortDirection) : Step T :=
  applySorting toStr { s with sorting := s.sorting ++ [mkSortDescriptor arg direction] }

/-- The state of a CollectionViewFilterCollection (source lines 311-379)
together with observable side effects: subs counts the member-change
subscriptions made by add (source line 342), raised counts the set-level
changed events raised (source line 344). -/
structure FcState (T : Type) where
  filters : List (ViewFilter T)
  subs : Nat
  raised : Nat

/-- The argument shapes accepted by CollectionViewFilterCollection.add
(source lines 323-326): a pre-built filter, an anonymous predicate, or a
name with a predicate. -/
inductive FilterAddArg (T : Type) where
  | filterObj (f : ViewFilter T)
  | anon (p : T → Bool)
  | named (name : String) (p : T → Bool)

/-- The name resolution of CollectionViewFilterCollection.add (source
lines 327-337): a filter object keeps its name, an explicit name is used
as given, and an anonymous predicate is named by the string form of the
current descriptor count. -/
def resolvedFilter {T : Type} (filters : List (ViewFilter T)) (arg : FilterAddArg T) :
    ViewFilter T :=
  match arg with
  | .filterObj f => f
  | .named name p => { name := name, predicate := p }
  | .anon p => { name := toString filters.length, predicate := p }

/-- The duplicate-name error message of add (source line 340), with the
source's quoting of the name elided. -/
def duplicateFilterMessage (name : String) : String :=
  "Filter with name " ++ name ++ " already exists."

/-- public add on CollectionViewFilterCollection (source lines 323-345):
resolves the argument to a filter, throws when a descriptor with the
resolved name already exists (source lines 339-340) before subscribing,
appending or raising anything; otherwise subscribes to the member change
event, appends the filter and raises the set-level changed event. -/
def fcAdd {T : Type} (st : FcState T) (arg : FilterAddArg T) :
    FcState T × Option JsError :=
  let f := resolvedFilter st.filters arg
  if (st.filters.find? (fun g => g.name == f.name)).isSome then
    (st, some (JsError.jsError (duplicateFilterMessage f.name)))
  else
    ({ filters := st.filters ++ [f], subs := st.subs + 1, raised := st.raised + 1 }, none)

/-- The string form of a JavaScript number, used where a concrete element
type is needed; integral numbers print as their decimal digits. -/
def intToStr : Int → String := fun n => toString n

/-- The three derived stage contents of a view state, compared by the
idempotence claim. -/
def stagesOf {T : Type} (s : ViewState T) :
    Option (List T) × Option (List T) × Option (List T) :=
  (s.filteredView, s.sortedView, s.pagedView)

/-- The sorting pipeline of applySorting on a defined sorted stage: one
stable sort pass per strict relation, in registration order. -/
def sortAllT {T : Type} (lts : List (T → T → Bool)) (l : List T) : List T :=
  lts.foldl (fun acc lt => insSort lt acc) l

/-- A strict relation on elements lifted to index-element pairs. -/
def liftLt {T : Type} (lt : T → T → Bool) (p q : Nat × T) : Bool :=
  lt p.2 q.2

/-- The sorting pipeline acting on index-element pairs, comparing only
the element components. -/
def sortAllP {T : Type} (lts : List (T → T → Bool)) (m : List (Nat × T)) : List (Nat × T) :=
  lts.foldl (fun acc lt => insSort (liftLt lt) acc) m

/-- Pair each element of a list with its position, starting at n. -/
def withIdx {T : Type} : Nat → List T → List (Nat × T)
  | _, [] => []
  | n, x :: xs => (n, x) :: withIdx (n + 1) xs

/-- One refinement step of the output ordering of a stable sort pass:
p comes before q when p is strictly below q for the new relation, or they
tie and p was before q already (relation r). -/
def stepR {T : Type} (lt : T → T → Bool) (r : Nat × T → Nat × T → Prop)
    (p q : Nat × T) : Prop :=
  (lt q.2 p.2 = false ∧ lt p.2 q.2 = true) ∨
    (lt q.2 p.2 = false ∧ lt p.2 q.2 = false ∧ r p q)

/-- The output ordering of the whole sorting pipeline over base ordering
r: each pass refines the ordering produced so far, so the last pass
dominates. -/
def foldStepR {T : Type} (r : Nat × T → Nat × T → Prop) (lts : List (T → T → Bool)) :
    Nat × T → Nat × T → Prop :=
  lts.foldl (fun acc lt => stepR lt acc) r

/-- All strict relations of the list tie p with q. -/
def tieAll {T : Type} (lts : List (T → T → Bool)) (p q : Nat × T) : Prop :=
  ∀ lt ∈ lts, lt p.2 q.2 = false ∧ lt q.2 p.2 = false

/-- Some strict relation of the list separates p strictly below q while
every later relation (closer to the end of the list) ties them. -/
def strictAny {T : Type} : List (T → T → Bool) → Nat × T → Nat × T → Prop
  | [] => fun _ _ => False
  | lt :: rest => fun p q =>
      strictAny rest p q ∨ (tieAll rest p q ∧ lt q.2 p.2 = false ∧ lt p.2 q.2 = true)

/-- A consistent comparator in the ECMAScript sense, phrased on the
derived strict relation: it is asymmetric and the complementary weak
relation is transitive.  Every default (string form) comparison is
consistent; user comparators are required by the JavaScript specification
to be consistent for sort to behave predictably. -/
def LtConsistent {T : Type} (lt : T → T → Bool) : Prop :=
  (∀ a b, lt a b = true → lt b a = false) ∧
    (∀ a b c, lt b a = false → lt c b = false → lt c a = false)

/-- A view state whose sorting pass cannot change the sorted stage any
further: sorting is suppressed, or the sorted stage is undefined (the
pass faults or is skipped), or the sorted stage is a fixed point of the
full descriptor pipeline. -/
def sortFixed {T : Type} (toStr : T → String) (t : ViewState T) : Prop :=
  t.suppressSorting = true ∨ t.sortedView = none ∨
    ∃ L, t.sortedView = some L ∧ sortAllT (t.sorting.map (descriptorLt toStr)) L = L

/-- A view state whose paging pass cannot change the paged stage any
further: paging is suppressed, or the sorted stage is undefined (the
pass faults), or the paged stage already equals the slice applyPaging
would compute. -/
def pageFixed {T : Type} (t : ViewState T) : Prop :=
  t.suppressPaging = true ∨ t.sortedView = none ∨
    ∃ L, t.sortedView = some L ∧
      t.pagedView = some (jsSlice L (t.pageIndex * t.pageSize) ((t.pageIndex + 1) * t.pageSize))

/-- A view state with one registered change listener and nothing else,
as obtained by constructing from an Observable that has not emitted yet
and then subscribing to the changed event. -/
def c3start : ViewState Int :=
  { initState Int with handlerCount := 1 }

/-- A hypothetical view state whose sorted stage is assigned, used to
exhibit the double notification applyFilters would produce were the
sorted stage ever defined. -/
def c3seed : ViewState Int :=
  { initState Int with handlerCount := 1, sortedView := some [5, 6] }

/-- The data 1..25 of the paging scenario. -/
def data25 : List Int := List.range' 1 25

/-- A hypothetical view state whose sorted stage holds 1..25, with the
default pageSize 10 and pageIndex 0. -/
def c4seed : ViewState Int :=
  { initState Int with sortedView := some data25 }

/-- A view state with an assigned sorted stage and one comparer-built
sort descriptor (the comparator returns the difference), used to witness
the idempotence claim. -/
def c7seed : ViewState Int :=
  { initState Int with
      sortedView := some [3, 1, 2]
      sorting := [{ selector := none
                    comparer := some (fun a b => a - b)
                    direction := SortDirection.Ascending
                    propertyComparer := none }] }

/-- A record shape for the sort-dominance scenario: a country and a
points field. -/
structure CRec where
  country : String
  points : Int
  deriving DecidableEq, Repr

/-- The string form of a plain JavaScript object, as produced by the
default Object.prototype.toString and used by the default sort
comparison: every record prints the same. -/
def crecToStr : CRec → String := fun _ => "[object Object]"

/-- A record with the lexicographically smaller country and the larger
points. -/
def recA : CRec := { country := "A", points := 2 }

/-- A record with the lexicographically larger country and the smaller
points. -/
def recB : CRec := { country := "B", points := 1 }

/-- A hypothetical view state whose sorted stage holds the two records
with the larger country first. -/
def c6seed : ViewState CRec :=
  { initState CRec with sortedView := some [recB, recA] }

/-- Adding the two sort descriptors of the scenario in registration
order: first the property name country, then the key selector for points
with direction Descending; each add triggers applySorting through the
changed listener. -/
def c6afterAdds : Step CRec :=
  sortingAdd crecToStr
    (sortingAdd crecToStr c6seed (SortAddArg.propertyName "country") none).1
    (SortAddArg.keySelector (fun r => JsComparable.num r.points))
    (some SortDirection.Descending)

/-- The ordered-by-country property claimed for the resulting sorted
stage: any pair of records appearing in this order and differing in
country is ordered by country (the country descriptor direction is
Ascending). -/
def orderedByCountry (l : List CRec) : Prop :=
  l.Pairwise (fun x y => x.country ≠ y.country → x.country < y.country)

end CollectionViewModel

namespace CollectionViewModel

/-! Helper lemmas about the model. -/

@[simp]
theorem raiseChanged_data {T : Type} (s : ViewState T) :
    (raiseChanged s).data = s.data := by
  unfold raiseChanged; split <;> rfl

@[simp]
theorem raiseChanged_filteredView {T : Type} (s : ViewState T) :
    (raiseChanged s).filteredView = s.filteredView := by
  unfold raiseChanged; split <;> rfl

@[simp]
theorem raiseChanged_sortedView {T : Type} (s : ViewState T) :
    (raiseChanged s).sortedView = s.sortedView := by
  unfold raiseChanged; split <;> rfl

@[simp]
theorem raiseChanged_pagedView {T : Type} (s : ViewState T) :
    (raiseChanged s).pagedView = s.pagedView := by
  unfold raiseChanged; split <;> rfl

@[simp]
theorem raiseChanged_pageSize {T : Type} (s : ViewState T) :
    (raiseChanged s).pageSize = s.pageSize := by
  unfold raiseChanged; split <;> rfl

@[simp]
theorem raiseChanged_pageIndex {T : Type} (s : ViewState T) :
    (raiseChanged s).pageIndex = s.pageIndex := by
  unfold raiseChanged; split <;> rfl

@[simp]
theorem raiseChanged_suppressFiltering {T : Type} (s : ViewState T) :
    (raiseChanged s).suppressFiltering = s.suppressFiltering := by
  unfold raiseChanged; split <;> rfl

@[simp]
theorem raiseChanged_suppressSorting {T : Type} (s : ViewState T) :
    (raiseChanged s).suppressSorting = s.suppressSorting := by
  unfold raiseChanged; split <;> rfl

@[simp]
theorem raiseChanged_suppressPaging {T : Type} (s : ViewState T) :
    (raiseChanged s).suppressPaging = s.suppressPaging := by
  unfold raiseChanged; split <;> rfl

@[simp]
theorem raiseChanged_filters {T : Type} (s : ViewState T) :
    (raiseChanged s).filters = s.filters := by
  unfold raiseChanged; split <;> rfl

@[simp]
theorem raiseChanged_sorting {T : Type} (s : ViewState T) :
    (raiseChanged s).sorting = s.sorting := by
  unfold raiseChanged; split <;> rfl

@[simp]
theorem raiseChanged_handlerCount {T : Type} (s : ViewState T) :
    (raiseChanged s).handlerCount = s.handlerCount := by
  unfold raiseChanged; split <;> rfl

theorem viewState_eta_sorted {T : Type} (s : ViewState T) (l : List T)
    (h : s.sortedView = some l) : { s with sortedView := some l } = s := by
  cases s; simp_all

theorem insSort_id_of_lt_false {α : Type} (lt : α → α → Bool)
    (h : ∀ a b, lt a b = false) : ∀ l : List α, insSort lt l = l := by
  intro l
  induction l with
  | nil => rfl
  | cons x xs ih =>
      simp only [insSort, ih]
      cases xs with
      | nil => rfl
      | cons y ys => simp [sInsert, h]

theorem jsSlice_nonneg_eq {α : Type} (l : List α) (a ps : Int)
    (ha : 0 ≤ a) (hps : 0 ≤ ps) :
    jsSlice l a (a + ps) = (l.drop a.toNat).take ps.toNat := by
  unfold jsSlice jsSliceBound
  rw [if_neg (by omega), if_neg (by omega)]
  have h1 : l.take (min (a + ps).toNat l.length) = l.take (a + ps).toNat := by
    rcases le_total (a + ps).toNat l.length with h | h
    · rw [min_eq_left h]
    · rw [min_eq_right h, List.take_length, List.take_of_length_le h]
  rw [h1]
  have h2 : (l.take (a + ps).toNat).drop (min a.toNat l.length) =
      (l.take (a + ps).toNat).drop a.toNat := by
    rcases le_total a.toNat l.length with h | h
    · rw [min_eq_left h]
    · rw [min_eq_right h]
      have hlen : (l.take (a + ps).toNat).length ≤ l.length := by
        rw [List.length_take]; exact min_le_right _ _
      rw [List.drop_eq_nil_of_le hlen, List.drop_eq_nil_of_le (le_trans hlen h)]
  rw [h2, List.drop_take]
  congr 1
  omega

theorem sortLoop_some {T : Type} (toStr : T → String) :
    ∀ (descs : List (SortDescriptor T)) (s : ViewState T) (l : List T),
      s.sortedView = some l →
      sortLoop toStr descs s =
        ({ s with sortedView := some (sortAllT (descs.map (descriptorLt toStr)) l) }, none) := by
  intro descs
  induction descs with
  | nil =>
      intro s l h
      simp only [sortLoop, sortAllT, List.map_nil, List.foldl_nil]
      rw [viewState_eta_sorted s l h]
  | cons d rest ih =>
      intro s l h
      simp only [sortLoop, h]
      rw [ih { s with sortedView := some (insSort (descriptorLt toStr d) l) }
            (insSort (descriptorLt toStr d) l) rfl]
      simp [sortAllT]

end CollectionViewModel

namespace CollectionViewModel

/-- Claim C1: the spec requires that after every mutating operation that
invalidates the sorted stage, the sorted stage is recomputed from the
current filtered stage (a permutation of it).  The code never assigns the
sorted stage from the filtered stage: evaluating setData on a fresh view
(the constructor on the array 1, 2) leaves the filtered stage assigned
to the data while the sorted stage is still undefined, and the cascade
aborts with a TypeError in applyPaging.  This evaluates the code at the
failing input of the recorded code bug. -/
theorem C1_sorted_stage_not_recomputed_from_filtered :
    (construct intToStr ([1, 2] : List Int)).1.filteredView = some [1, 2] ∧
    (construct intToStr ([1, 2] : List Int)).1.sortedView = none ∧
    (construct intToStr ([1, 2] : List Int)).2 =
      some (JsError.typeError sliceUndefinedMessage) :=
  ⟨rfl, rfl, rfl⟩

/-- Claim C2: constructing a CollectionView from a plain array is not
total: for every array input the constructor runs setData, applyFilters
and applySorting without ever assigning the sorted stage, so the
paged-stage recompute slices a still-undefined sorted stage and throws a
TypeError; the sorted and paged stages remain undefined. -/
theorem C2_construct_always_faults (T : Type) (toStr : T → String) (d : List T) :
    (construct toStr d).2 = some (JsError.typeError sliceUndefinedMessage) ∧
    (construct toStr d).1.sortedView = none ∧
    (construct toStr d).1.pagedView = none :=
  ⟨rfl, rfl, rfl⟩

/-- Claim C3: the spec claims every mutating call raises exactly one
ChangeEvent, from the paged-stage recompute.  In the code this fails in
two ways, both exhibited here.  First, from the only reachable kind of
instance (constructed from a not-yet-emitting Observable, one listener
registered), setData faults in applyPaging before raiseChanged runs, so
zero events are delivered.  Second, were the sorted stage ever assigned,
setData would deliver two events, because applyFilters calls applyPaging
both through applySorting and directly. -/
theorem C3_change_events_not_exactly_one :
    ((setData intToStr c3start [1]).2 = some (JsError.typeError sliceUndefinedMessage) ∧
      (setData intToStr c3start [1]).1.events = []) ∧
    ((setData intToStr c3seed [1]).2 = none ∧
      (setData intToStr c3seed [1]).1.events = [[5, 6], [5, 6]]) :=
  ⟨⟨rfl, rfl⟩, ⟨rfl, rfl⟩⟩

/-- Claim C4: the paging scenario of the spec (data 1..25, pageSize 10,
navigate forward twice, then a final throw) fails at its first step: the
constructor itself throws a TypeError, so no view 1..10 ever exists.
Moreover, even on a hypothetical state whose sorted stage holds 1..25
with pageIndex 0, the paged view is 1..10 but canNavigateToNextPage is
already false, because the code compares (pageIndex+1)*pageSize against
the paged slice length, so the very first goToNextPage throws. -/
theorem C4_paging_scenario_fails :
    (construct intToStr data25).2 = some (JsError.typeError sliceUndefinedMessage) ∧
    (construct intToStr data25).1.pagedView = none ∧
    (applyPaging c4seed).1.pagedView = some [1, 2, 3, 4, 5, 6, 7, 8, 9, 10] ∧
    canNavigateToNextPage (applyPaging c4seed).1 = Except.ok false ∧
    goToNextPage (applyPaging c4seed).1 =
      ((applyPaging c4seed).1, some (JsError.jsError nextPageErrorMessage)) :=
  ⟨rfl, rfl, rfl, rfl, rfl⟩

/-- Claim C8: the pageSize setter fails for every value below one and the
pageIndex setter fails for every negative value; in both cases the throw
happens before any assignment, so the state (including the prior paging
values and the event log) is returned unchanged: no recompute runs and no
change notification is raised. -/
theorem C8_paging_setters_reject_invalid {T : Type} (s : ViewState T) (v w : Int)
    (hv : v < 1) (hw : w < 0) :
    setPageSize s v = (s, some (JsError.jsError pageSizeErrorMessage)) ∧
    setPageIndex s w = (s, some (JsError.jsError pageIndexErrorMessage)) := by
  constructor
  · simp [setPageSize, hv]
  · simp [setPageIndex, hw]

/-- Witness for claim C8 at the concrete invalid values 0 and -1 on the
initial state. -/
theorem C8_paging_setters_reject_invalid_witness :
    ((0 : Int) < 1 ∧ (-1 : Int) < 0) ∧
    setPageSize (initState Int) 0 = (initState Int, some (JsError.jsError pageSizeErrorMessage)) ∧
    setPageIndex (initState Int) (-1) =
      (initState Int, some (JsError.jsError pageIndexErrorMessage)) :=
  ⟨by decide, C8_paging_setters_reject_invalid (initState Int) 0 (-1) (by decide) (by decide)⟩

/-- Claim C9: FilterSet.add fails with the duplicate-name error whenever
the resolved name (explicit, taken from a filter object, or synthesized
from the current count for an anonymous predicate: all three shapes are
covered by the argument type) collides with an existing descriptor name,
and the collection state is returned unchanged: the existing filter list,
the subscription count and the raised-event count all stand. -/
theorem C9_filter_add_duplicate_name_rejected {T : Type} (st : FcState T)
    (arg : FilterAddArg T)
    (h : (st.filters.find?
        (fun g => g.name == (resolvedFilter st.filters arg).name)).isSome = true) :
    fcAdd st arg =
      (st, some (JsError.jsError (duplicateFilterMessage (resolvedFilter st.filters arg).name))) := by
  simp only [fcAdd, h, if_true]

/-- Witness for claim C9: a collection already holding a filter named
Default rejects a second add under the same name. -/
theorem C9_filter_add_duplicate_name_rejected_witness :
    ((FcState.mk (T := Int) [ViewFilter.mk "Default" (fun _ => true)] 1 1).filters.find?
        (fun g => g.name ==
          (resolvedFilter (FcState.mk (T := Int) [ViewFilter.mk "Default" (fun _ => true)] 1 1).filters
            (FilterAddArg.named "Default" (fun _ => false))).name)).isSome = true ∧
    fcAdd (FcState.mk (T := Int) [ViewFilter.mk "Default" (fun _ => true)] 1 1)
        (FilterAddArg.named "Default" (fun _ => false)) =
      (FcState.mk (T := Int) [ViewFilter.mk "Default" (fun _ => true)] 1 1,
        some (JsError.jsError (duplicateFilterMessage "Default"))) :=
  ⟨rfl, C9_filter_add_duplicate_name_rejected _ _ rfl⟩

/-- Claim C5: whenever paging is not suppressed, for every page size at
least one and page index at least zero, the paged stage computed by
applyPaging equals the slice of the sorted stage over the index range
from pageIndex*pageSize (inclusive) to (pageIndex+1)*pageSize
(exclusive), here written as drop then take, and its length is at most
pageSize. -/
theorem C5_pagedView_is_slice_of_sorted {T : Type} (s : ViewState T) (l : List T)
    (hsup : s.suppressPaging = false) (hsv : s.sortedView = some l)
    (hps : 1 ≤ s.pageSize) (hpi : 0 ≤ s.pageIndex) :
    (applyPaging s).2 = none ∧
    (applyPaging s).1.pagedView =
      some ((l.drop (s.pageIndex * s.pageSize).toNat).take s.pageSize.toNat) ∧
    ((l.drop (s.pageIndex * s.pageSize).toNat).take s.pageSize.toNat).length ≤
      s.pageSize.toNat := by
  have ha : 0 ≤ s.pageIndex * s.pageSize := mul_nonneg hpi (by linarith)
  have hslice : jsSlice l (s.pageIndex * s.pageSize) ((s.pageIndex + 1) * s.pageSize) =
      (l.drop (s.pageIndex * s.pageSize).toNat).take s.pageSize.toNat := by
    have hr : (s.pageIndex + 1) * s.pageSize = s.pageIndex * s.pageSize + s.pageSize := by ring
    rw [hr]
    exact jsSlice_nonneg_eq l _ _ ha (by linarith)
  refine ⟨?_, ?_, ?_⟩
  · simp [applyPaging, hsup, hsv]
  · simp [applyPaging, hsup, hsv, hslice]
  · rw [List.length_take]
    exact min_le_left _ _

/-- Witness for claim C5 on a concrete state whose sorted stage holds
three elements. -/
theorem C5_pagedView_is_slice_of_sorted_witness :
    ((c4seed.suppressPaging = false) ∧ c4seed.sortedView = some data25 ∧
      (1 : Int) ≤ c4seed.pageSize ∧ (0 : Int) ≤ c4seed.pageIndex) ∧
    ((applyPaging c4seed).2 = none ∧
      (applyPaging c4seed).1.pagedView =
        some ((data25.drop (c4seed.pageIndex * c4seed.pageSize).toNat).take
          c4seed.pageSize.toNat) ∧
      ((data25.drop (c4seed.pageIndex * c4seed.pageSize).toNat).take
          c4seed.pageSize.toNat).length ≤ c4seed.pageSize.toNat) :=
  ⟨⟨rfl, rfl, by decide, by decide⟩,
    C5_pagedView_is_slice_of_sorted c4seed data25 rfl rfl (by decide) (by decide)⟩

end CollectionViewModel

namespace CollectionViewModel

/-- Claim C10: any state produced by a successful unsuppressed paged
recompute under valid paging parameters has a paged stage of length at
most pageSize, and since the canNavigateToNextPage getter compares
(pageIndex+1)*pageSize strictly against the length of that already-paged
slice, the getter returns false there and goToNextPage throws the
navigation error, leaving the state unchanged. -/
theorem C10_canNavigateToNextPage_always_false {T : Type} (s s2 : ViewState T)
    (hps : 1 ≤ s.pageSize) (hpi : 0 ≤ s.pageIndex) (hsup : s.suppressPaging = false)
    (h : applyPaging s = (s2, none)) :
    canNavigateToNextPage s2 = Except.ok false ∧
    goToNextPage s2 = (s2, some (JsError.jsError nextPageErrorMessage)) := by
  cases hsv : s.sortedView with
  | none =>
      exfalso
      have hcontra : (applyPaging s).2 = some (JsError.typeError sliceUndefinedMessage) := by
        simp [applyPaging, hsup, hsv]
      rw [h] at hcontra
      simp at hcontra
  | some l =>
      have h1 : raiseChanged { s with pagedView := some (jsSlice l (s.pageIndex * s.pageSize) ((s.pageIndex + 1) * s.pageSize)) } = s2 := by
        simpa [applyPaging, hsup, hsv] using congrArg Prod.fst h
      have hpag : s2.pagedView =
          some (jsSlice l (s.pageIndex * s.pageSize) ((s.pageIndex + 1) * s.pageSize)) := by
        rw [← h1, raiseChanged_pagedView]
      have hpi2 : s2.pageIndex = s.pageIndex := by rw [← h1, raiseChanged_pageIndex]
      have hps2 : s2.pageSize = s.pageSize := by rw [← h1, raiseChanged_pageSize]
      have hlen : (jsSlice l (s.pageIndex * s.pageSize)
          ((s.pageIndex + 1) * s.pageSize)).length ≤ s.pageSize.toNat := by
        have hr : (s.pageIndex + 1) * s.pageSize = s.pageIndex * s.pageSize + s.pageSize := by
          ring
        rw [hr, jsSlice_nonneg_eq l _ _ (mul_nonneg hpi (by linarith)) (by linarith),
          List.length_take]
        exact min_le_left _ _
      have hnolt : ¬ ((s2.pageIndex + 1) * s2.pageSize <
          ((jsSlice l (s.pageIndex * s.pageSize)
            ((s.pageIndex + 1) * s.pageSize)).length : Int)) := by
        rw [hpi2, hps2]
        have hc : ((jsSlice l (s.pageIndex * s.pageSize)
            ((s.pageIndex + 1) * s.pageSize)).length : Int) ≤ s.pageSize := by
          calc ((jsSlice l (s.pageIndex * s.pageSize)
              ((s.pageIndex + 1) * s.pageSize)).length : Int)
              ≤ (s.pageSize.toNat : Int) := by exact_mod_cast hlen
            _ = s.pageSize := Int.toNat_of_nonneg (by linarith)
        have hm : s.pageSize ≤ (s.pageIndex + 1) * s.pageSize := by
          have hn : 0 ≤ s.pageIndex * s.pageSize := mul_nonneg hpi (by linarith)
          nlinarith
        linarith
      have hcan : canNavigateToNextPage s2 = Except.ok false := by
        simp [canNavigateToNextPage, hpag, hnolt]
      refine ⟨hcan, ?_⟩
      simp [goToNextPage, hcan]

/-- Witness for claim C10 on the concrete seeded state with sorted stage
1..25, pageSize 10 and pageIndex 0. -/
theorem C10_canNavigateToNextPage_always_false_witness :
    ((1 : Int) ≤ c4seed.pageSize ∧ (0 : Int) ≤ c4seed.pageIndex ∧
      c4seed.suppressPaging = false ∧
      applyPaging c4seed = ({ c4seed with pagedView := some (jsSlice data25 0 10) }, none)) ∧
    (canNavigateToNextPage { c4seed with pagedView := some (jsSlice data25 0 10) } =
        Except.ok false ∧
      goToNextPage { c4seed with pagedView := some (jsSlice data25 0 10) } =
        ({ c4seed with pagedView := some (jsSlice data25 0 10) },
          some (JsError.jsError nextPageErrorMessage))) :=
  ⟨⟨by decide, by decide, rfl, rfl⟩,
    C10_canNavigateToNextPage_always_false c4seed _ (by decide) (by decide) rfl rfl⟩

end CollectionViewModel

namespace CollectionViewModel

theorem sortAllT_id {T : Type} :
    ∀ (lts : List (T → T → Bool)), (∀ lt ∈ lts, ∀ a b, lt a b = false) →
      ∀ l : List T, sortAllT lts l = l := by
  intro lts
  induction lts with
  | nil => intro _ l; rfl
  | cons lt rest ih =>
      intro h l
      have h1 : insSort lt l = l :=
        insSort_id_of_lt_false lt (h lt (by simp)) l
      have h2 : ∀ lt2 ∈ rest, ∀ a b, lt2 a b = false := by
        intro lt2 hm a b
        exact h lt2 (by simp [hm]) a b
      simp only [sortAllT, List.foldl_cons, h1]
      exact ih h2 l

theorem applySorting_stable {T : Type} (toStr : T → String) (s : ViewState T) (l : List T)
    (hsv : s.sortedView = some l)
    (hid : ∀ d ∈ s.sorting, ∀ a b, descriptorLt toStr d a b = false) :
    (applySorting toStr s).1.sortedView = some l ∧
    (applySorting toStr s).1.sorting = s.sorting ∧
    (applySorting toStr s).1.suppressSorting = s.suppressSorting ∧
    (applySorting toStr s).1.suppressPaging = s.suppressPaging := by
  unfold applySorting
  cases hss : s.suppressSorting with
  | true => simp [hss, hsv]
  | false =>
      have hL : sortAllT (s.sorting.map (descriptorLt toStr)) l = l := by
        apply sortAllT_id
        intro lt hm a b
        rcases List.mem_map.1 hm with ⟨d, hd, rfl⟩
        exact hid d hd a b
      simp only [hss, Bool.false_eq_true, if_false]
      rw [sortLoop_some toStr s.sorting s l hsv, hL, viewState_eta_sorted s l hsv]
      simp only [Step.andThen]
      unfold applyPaging
      cases hsp : s.suppressPaging with
      | true => simp [hsp, hsv, hss]
      | false => simp [hsp, hsv, hss]

theorem sortingAdd_stable {T : Type} (toStr : T → String) (s : ViewState T) (l : List T)
    (arg : SortAddArg T) (dir : Option SortDirection)
    (hsv : s.sortedView = some l)
    (hid : ∀ d ∈ s.sorting, ∀ a b, descriptorLt toStr d a b = false)
    (hnew : ∀ a b, descriptorLt toStr (mkSortDescriptor arg dir) a b = false) :
    (sortingAdd toStr s arg dir).1.sortedView = some l ∧
    (sortingAdd toStr s arg dir).1.suppressSorting = s.suppressSorting ∧
    (sortingAdd toStr s arg dir).1.suppressPaging = s.suppressPaging ∧
    (∀ d ∈ (sortingAdd toStr s arg dir).1.sorting, ∀ a b,
      descriptorLt toStr d a b = false) := by
  have hid2 : ∀ d ∈ ({ s with sorting := s.sorting ++ [mkSortDescriptor arg dir] } :
      ViewState T).sorting, ∀ a b, descriptorLt toStr d a b = false := by
    intro d hd a b
    simp only [List.mem_append, List.mem_singleton] at hd
    rcases hd with hd | hd
    · exact hid d hd a b
    · subst hd; exact hnew a b
  have base := applySorting_stable toStr
    { s with sorting := s.sorting ++ [mkSortDescriptor arg dir] } l (by simpa using hsv) hid2
  unfold sortingAdd
  refine ⟨base.1, by simpa using base.2.2.1, by simpa using base.2.2.2, ?_⟩
  intro d hd a b
  rw [base.2.1] at hd
  exact hid2 d hd a b

theorem crec_default_lt_false (d : SortDescriptor CRec) (hc : d.comparer = none)
    (a b : CRec) : descriptorLt crecToStr d a b = false := by
  unfold descriptorLt
  rw [hc]
  exact decide_eq_false (lt_irrefl _)

theorem c6_sorted_stage_unchanged (s : ViewState CRec) (l : List CRec)
    (hsv : s.sortedView = some l) (hsort : s.sorting = []) :
    (sortingAdd crecToStr
      (sortingAdd crecToStr s (SortAddArg.propertyName "country") none).1
      (SortAddArg.keySelector (fun r => JsComparable.num r.points))
      (some SortDirection.Descending)).1.sortedView = some l := by
  have hid0 : ∀ d ∈ s.sorting, ∀ a b : CRec, descriptorLt crecToStr d a b = false := by
    intro d hd
    rw [hsort] at hd
    exact absurd hd (List.not_mem_nil d)
  have hfirst := sortingAdd_stable crecToStr s l (SortAddArg.propertyName "country") none
    hsv hid0 (crec_default_lt_false _ rfl)
  have hsecond := sortingAdd_stable crecToStr
    (sortingAdd crecToStr s (SortAddArg.propertyName "country") none).1 l
    (SortAddArg.keySelector (fun r => JsComparable.num r.points))
    (some SortDirection.Descending)
    hfirst.1 hfirst.2.2.2 (crec_default_lt_false _ rfl)
  exact hsecond.1

/-- Counterexample to claim C6: starting from a state whose sorted stage
holds the record with country B before the record with country A, adding
the descriptors country then points(descending) in registration order
leaves the sorted stage in its original order, because selector-built
descriptors carry no comparator and the default sort compares the
identical object string forms.  The resulting sorted stage contains a
pair of records differing in country that is not ordered by country. -/
theorem C6_country_dominance_counterexample :
    c6afterAdds.1.sortedView = some [recB, recA] ∧
    recB.country ≠ recA.country ∧
    ¬ recB.country < recA.country ∧
    ¬ orderedByCountry (c6afterAdds.1.sortedView.getD []) := by
  have hsv : c6afterAdds.1.sortedView = some [recB, recA] :=
    c6_sorted_stage_unchanged c6seed [recB, recA] rfl rfl
  have hne : recB.country ≠ recA.country := by decide
  have hnlt : ¬ recB.country < recA.country := by
    show ¬ ("B" : String) < "A"
    simp [String.lt_iff_toList_lt]
    decide
  refine ⟨hsv, hne, hnlt, ?_⟩
  intro hp
  simp only [orderedByCountry, hsv, Option.getD_some] at hp
  rcases List.pairwise_cons.1 hp with ⟨hB, -⟩
  exact hnlt (hB recA (by simp) hne)

/-- Claim C6 amended: with sort descriptors added in registration order
country then points(descending), the resulting sorted stage is NOT
ordered by country for pairs differing in country; instead it is left
exactly as it was, because a selector-built descriptor never derives a
comparator (its comparer field stays undefined, and direction is never
consulted), so each pass is the default sort over the identical string
forms of the records and the stable sort keeps the original order. -/
theorem C6_sorting_add_leaves_order_unchanged (s : ViewState CRec) (l : List CRec)
    (hsv : s.sortedView = some l) (hsort : s.sorting = []) :
    (sortingAdd crecToStr
      (sortingAdd crecToStr s (SortAddArg.propertyName "country") none).1
      (SortAddArg.keySelector (fun r => JsComparable.num r.points))
      (some SortDirection.Descending)).1.sortedView = some l :=
  c6_sorted_stage_unchanged s l hsv hsort

/-- Witness for the amended claim C6 on the concrete seeded state. -/
theorem C6_sorting_add_leaves_order_unchanged_witness :
    (c6seed.sortedView = some [recB, recA] ∧ c6seed.sorting = []) ∧
    (sortingAdd crecToStr
      (sortingAdd crecToStr c6seed (SortAddArg.propertyName "country") none).1
      (SortAddArg.keySelector (fun r => JsComparable.num r.points))
      (some SortDirection.Descending)).1.sortedView = some [recB, recA] :=
  ⟨⟨rfl, rfl⟩, C6_sorting_add_leaves_order_unchanged c6seed [recB, recA] rfl rfl⟩

end CollectionViewModel

namespace CollectionViewModel

/-! Stable-sort theory: the stable insertion sort modelling
Array.prototype.sort, its permutation property, and the characterization
of repeated sort passes needed for the idempotence claim. -/

theorem sInsert_perm {α : Type} (lt : α → α → Bool) (x : α) :
    ∀ S : List α, (sInsert lt x S).Perm (x :: S) := by
  intro S
  induction S with
  | nil => simp [sInsert]
  | cons y ys ih =>
      unfold sInsert
      cases hlt : lt y x with
      | true =>
          simp only [hlt, if_true]
          exact (ih.cons y).trans (List.Perm.swap x y ys)
      | false =>
          simp only [hlt, Bool.false_eq_true, if_false]
          exact List.Perm.refl _

theorem insSort_perm {α : Type} (lt : α → α → Bool) :
    ∀ m : List α, (insSort lt m).Perm m := by
  intro m
  induction m with
  | nil => exact List.Perm.refl _
  | cons x xs ih =>
      unfold insSort
      exact ((sInsert_perm lt x (insSort lt xs)).trans (ih.cons x))

theorem sortAllP_perm {T : Type} :
    ∀ (lts : List (T → T → Bool)) (m : List (Nat × T)), (sortAllP lts m).Perm m := by
  intro lts
  induction lts with
  | nil => intro m; exact List.Perm.refl _
  | cons lt rest ih =>
      intro m
      have h1 : (sortAllP rest (insSort (liftLt lt) m)).Perm (insSort (liftLt lt) m) :=
        ih (insSort (liftLt lt) m)
      have h2 : (insSort (liftLt lt) m).Perm m := insSort_perm (liftLt lt) m
      simp only [sortAllP, List.foldl_cons]
      exact h1.trans h2

theorem sInsert_pairwise_step {T : Type} (lt : T → T → Bool)
    (hA : ∀ a b, lt a b = true → lt b a = false)
    (hT : ∀ a b c, lt b a = false → lt c b = false → lt c a = false)
    (r : Nat × T → Nat × T → Prop) (p : Nat × T) :
    ∀ S : List (Nat × T), S.Pairwise (stepR lt r) → (∀ q ∈ S, r p q) →
      (sInsert (liftLt lt) p S).Pairwise (stepR lt r) := by
  intro S
  induction S with
  | nil =>
      intro _ _
      simp only [sInsert]
      exact List.pairwise_singleton (stepR lt r) p
  | cons y ys ih =>
      intro hpw hr
      rcases List.pairwise_cons.1 hpw with ⟨hy, hys⟩
      unfold sInsert
      cases hlt : liftLt lt y p with
      | true =>
          simp only [hlt, if_true]
          apply List.pairwise_cons.2
          refine ⟨?_, ih hys (fun q hq => hr q (List.mem_cons_of_mem y hq))⟩
          intro z hz
          have hz2 : z ∈ p :: ys := (sInsert_perm (liftLt lt) p ys).mem_iff.1 hz
          rcases List.mem_cons.1 hz2 with rfl | hz3
          · have hyp : lt y.2 z.2 = true := hlt
            exact Or.inl ⟨hA _ _ hyp, hyp⟩
          · exact hy z hz3
      | false =>
          simp only [hlt, Bool.false_eq_true, if_false]
          apply List.pairwise_cons.2
          refine ⟨?_, List.pairwise_cons.2 ⟨hy, hys⟩⟩
          intro z hz
          have hle_py : lt y.2 p.2 = false := hlt
          rcases List.mem_cons.1 hz with rfl | hz2
          · cases hpz : lt p.2 z.2 with
            | true => exact Or.inl ⟨hle_py, hpz⟩
            | false => exact Or.inr ⟨hle_py, hpz, hr z (List.mem_cons_self z _)⟩
          · have hzy : lt z.2 y.2 = false := by
              rcases hy z hz2 with ⟨h1, _⟩ | ⟨h1, _, _⟩ <;> exact h1
            have hzp : lt z.2 p.2 = false := hT p.2 y.2 z.2 hle_py hzy
            cases hpz : lt p.2 z.2 with
            | true => exact Or.inl ⟨hzp, hpz⟩
            | false => exact Or.inr ⟨hzp, hpz, hr z (List.mem_cons_of_mem y hz2)⟩

theorem insSort_pairwise_step {T : Type} (lt : T → T → Bool)
    (hA : ∀ a b, lt a b = true → lt b a = false)
    (hT : ∀ a b c, lt b a = false → lt c b = false → lt c a = false)
    (r : Nat × T → Nat × T → Prop) :
    ∀ m : List (Nat × T), m.Pairwise r →
      (insSort (liftLt lt) m).Pairwise (stepR lt r) := by
  intro m
  induction m with
  | nil => intro _; simp [insSort]
  | cons p ps ih =>
      intro hpw
      rcases List.pairwise_cons.1 hpw with ⟨hp, hps⟩
      unfold insSort
      apply sInsert_pairwise_step lt hA hT r p _ (ih hps)
      intro q hq
      exact hp q ((insSort_perm (liftLt lt) ps).mem_iff.1 hq)

theorem sortAllP_pairwise {T : Type} :
    ∀ (lts : List (T → T → Bool)) (r : Nat × T → Nat × T → Prop) (m : List (Nat × T)),
      (∀ lt ∈ lts, LtConsistent lt) → m.Pairwise r →
      (sortAllP lts m).Pairwise (foldStepR r lts) := by
  intro lts
  induction lts with
  | nil => intro r m _ h; simpa [sortAllP, foldStepR] using h
  | cons lt rest ih =>
      intro r m hcons hpw
      have hc := hcons lt (List.mem_cons_self lt rest)
      have h1 : (insSort (liftLt lt) m).Pairwise (stepR lt r) :=
        insSort_pairwise_step lt hc.1 hc.2 r m hpw
      have h2 := ih (stepR lt r) (insSort (liftLt lt) m)
        (fun lt2 h2 => hcons lt2 (List.mem_cons_of_mem lt h2)) h1
      simpa [sortAllP, foldStepR] using h2

theorem tieAll_cons {T : Type} (lt : T → T → Bool) (lts : List (T → T → Bool))
    (p q : Nat × T) :
    tieAll (lt :: lts) p q ↔
      (lt p.2 q.2 = false ∧ lt q.2 p.2 = false) ∧ tieAll lts p q := by
  simp [tieAll, List.forall_mem_cons]

theorem foldStepR_iff {T : Type} :
    ∀ (lts : List (T → T → Bool)) (r : Nat × T → Nat × T → Prop) (p q : Nat × T),
      foldStepR r lts p q ↔ strictAny lts p q ∨ (tieAll lts p q ∧ r p q) := by
  intro lts
  induction lts with
  | nil =>
      intro r p q
      simp [foldStepR, strictAny, tieAll]
  | cons lt rest ih =>
      intro r p q
      have h0 : foldStepR r (lt :: rest) p q ↔ foldStepR (stepR lt r) rest p q := Iff.rfl
      rw [h0, ih (stepR lt r) p q]
      simp only [strictAny, tieAll_cons, stepR]
      tauto

theorem foldStepR_absorb {T : Type} (lts : List (T → T → Bool))
    (r : Nat × T → Nat × T → Prop) (p q : Nat × T) :
    foldStepR (foldStepR r lts) lts p q → foldStepR r lts p q := by
  intro h
  rcases (foldStepR_iff lts (foldStepR r lts) p q).1 h with hs | ht
  · exact (foldStepR_iff lts r p q).2 (Or.inl hs)
  · exact ht.2

theorem stepR_anti {T : Type} (lt : T → T → Bool) (r : Nat × T → Nat × T → Prop)
    (h : ∀ p q, r p q → r q p → p.1 = q.1) :
    ∀ p q, stepR lt r p q → stepR lt r q p → p.1 = q.1 := by
  intro p q hpq hqp
  rcases hpq with ⟨h1, h2⟩ | ⟨h1, h2, h3⟩ <;>
    rcases hqp with ⟨h4, h5⟩ | ⟨h4, h5, h6⟩
  · rw [h4] at h2; exact absurd h2 (by simp)
  · rw [h4] at h2; exact absurd h2 (by simp)
  · rw [h1] at h5; exact absurd h5 (by simp)
  · exact h p q h3 h6

theorem foldStepR_anti {T : Type} :
    ∀ (lts : List (T → T → Bool)) (r : Nat × T → Nat × T → Prop),
      (∀ p q, r p q → r q p → p.1 = q.1) →
      ∀ p q, foldStepR r lts p q → foldStepR r lts q p → p.1 = q.1 := by
  intro lts
  induction lts with
  | nil => intro r h p q h1 h2; exact h p q h1 h2
  | cons lt rest ih =>
      intro r h p q h1 h2
      exact ih (stepR lt r) (stepR_anti lt r h) p q h1 h2

theorem pairwise_perm_unique {T : Type} (R : Nat × T → Nat × T → Prop)
    (hanti : ∀ p q, R p q → R q p → p.1 = q.1) :
    ∀ (l1 l2 : List (Nat × T)), l1.Perm l2 → l1.Pairwise R → l2.Pairwise R →
      (l1.map Prod.fst).Nodup → l1 = l2 := by
  intro l1
  induction l1 with
  | nil =>
      intro l2 hp _ _ _
      exact (hp.symm.eq_nil).symm
  | cons p t1 ih =>
      intro l2 hp hpw1 hpw2 hnd
      cases l2 with
      | nil =>
          have := hp.eq_nil
          simp at this
      | cons q t2 =>
          by_cases hpq : p = q
          · subst hpq
            have ht : t1.Perm t2 := hp.cons_inv
            have hrec := ih t2 ht (List.pairwise_cons.1 hpw1).2
              (List.pairwise_cons.1 hpw2).2 (by simpa using hnd.of_cons)
            rw [hrec]
          · exfalso
            have hq_in_t1 : q ∈ t1 := by
              have hmem : q ∈ p :: t1 := hp.mem_iff.2 (List.mem_cons_self q t2)
              rcases List.mem_cons.1 hmem with h | h
              · exact absurd h.symm hpq
              · exact h
            have hp_in_t2 : p ∈ t2 := by
              have hmem : p ∈ q :: t2 := hp.mem_iff.1 (List.mem_cons_self p t1)
              rcases List.mem_cons.1 hmem with h | h
              · exact absurd h hpq
              · exact h
            have hRpq : R p q := (List.pairwise_cons.1 hpw1).1 q hq_in_t1
            have hRqp : R q p := (List.pairwise_cons.1 hpw2).1 p hp_in_t2
            have heq : p.1 = q.1 := hanti p q hRpq hRqp
            have hmem2 : p.1 ∈ t1.map Prod.fst := by
              rw [heq]; exact List.mem_map_of_mem Prod.fst hq_in_t1
            have hnotin : p.1 ∉ t1.map Prod.fst := by
              simp only [List.map_cons, List.nodup_cons] at hnd
              exact hnd.1
            exact hnotin hmem2

theorem withIdx_map_snd {T : Type} : ∀ (n : Nat) (l : List T),
    (withIdx n l).map Prod.snd = l := by
  intro n l
  induction l generalizing n with
  | nil => rfl
  | cons x xs ih => simp [withIdx, ih]

theorem withIdx_fst_ge {T : Type} : ∀ (l : List T) (n : Nat) (p : Nat × T),
    p ∈ withIdx n l → n ≤ p.1 := by
  intro l
  induction l with
  | nil => intro n p h; simp [withIdx] at h
  | cons x xs ih =>
      intro n p h
      rcases List.mem_cons.1 h with rfl | h2
      · exact le_refl n
      · exact le_trans (Nat.le_succ n) (ih (n + 1) p h2)

theorem withIdx_pairwise {T : Type} : ∀ (l : List T) (n : Nat),
    (withIdx n l).Pairwise (fun p q : Nat × T => p.1 < q.1) := by
  intro l
  induction l with
  | nil => intro n; simp [withIdx]
  | cons x xs ih =>
      intro n
      apply List.pairwise_cons.2
      refine ⟨?_, ih (n + 1)⟩
      intro q hq
      exact lt_of_lt_of_le (Nat.lt_succ_self n) (withIdx_fst_ge xs (n + 1) q hq)

theorem sInsert_map_snd {T : Type} (lt : T → T → Bool) (p : Nat × T) :
    ∀ m : List (Nat × T),
      (sInsert (liftLt lt) p m).map Prod.snd = sInsert lt p.2 (m.map Prod.snd) := by
  intro m
  induction m with
  | nil => rfl
  | cons y ys ih =>
      unfold sInsert
      cases hlt : lt y.2 p.2 with
      | true =>
          have h1 : liftLt lt y p = true := hlt
          simp only [h1, hlt, if_true, List.map_cons, ih]
      | false =>
          have h1 : liftLt lt y p = false := hlt
          simp only [h1, hlt, List.map_cons, Bool.false_eq_true, if_false]

theorem insSort_map_snd {T : Type} (lt : T → T → Bool) :
    ∀ m : List (Nat × T),
      (insSort (liftLt lt) m).map Prod.snd = insSort lt (m.map Prod.snd) := by
  intro m
  induction m with
  | nil => rfl
  | cons p ps ih =>
      unfold insSort
      rw [sInsert_map_snd, ih]
      rfl

theorem sortAllP_map_snd {T : Type} :
    ∀ (lts : List (T → T → Bool)) (m : List (Nat × T)),
      (sortAllP lts m).map Prod.snd = sortAllT lts (m.map Prod.snd) := by
  intro lts
  induction lts with
  | nil => intro m; rfl
  | cons lt rest ih =>
      intro m
      have h1 : sortAllP (lt :: rest) m = sortAllP rest (insSort (liftLt lt) m) := rfl
      rw [h1, ih (insSort (liftLt lt) m), insSort_map_snd]
      rfl

theorem sortAllT_idem {T : Type} (lts : List (T → T → Bool))
    (hcons : ∀ lt ∈ lts, LtConsistent lt) (l : List T) :
    sortAllT lts (sortAllT lts l) = sortAllT lts l := by
  have hsnd : (withIdx 0 l).map Prod.snd = l := withIdx_map_snd 0 l
  have hpw0 : (withIdx 0 l).Pairwise (fun p q : Nat × T => p.1 < q.1) :=
    withIdx_pairwise l 0
  have hanti0 : ∀ p q : Nat × T, p.1 < q.1 → q.1 < p.1 → p.1 = q.1 := by
    intro p q h1 h2; omega
  have hY : (sortAllP lts (withIdx 0 l)).Pairwise
      (foldStepR (fun p q : Nat × T => p.1 < q.1) lts) :=
    sortAllP_pairwise lts _ _ hcons hpw0
  have hYY : (sortAllP lts (sortAllP lts (withIdx 0 l))).Pairwise
      (foldStepR (foldStepR (fun p q : Nat × T => p.1 < q.1) lts) lts) :=
    sortAllP_pairwise lts _ _ hcons hY
  have hYY2 : (sortAllP lts (sortAllP lts (withIdx 0 l))).Pairwise
      (foldStepR (fun p q : Nat × T => p.1 < q.1) lts) :=
    hYY.imp (fun h => foldStepR_absorb lts _ _ _ h)
  have hperm2 : (sortAllP lts (sortAllP lts (withIdx 0 l))).Perm
      (sortAllP lts (withIdx 0 l)) := sortAllP_perm lts _
  have hanti := foldStepR_anti lts (fun p q : Nat × T => p.1 < q.1) hanti0
  have hnodup : ((sortAllP lts (withIdx 0 l)).map Prod.fst).Nodup := by
    have h2 : ((withIdx 0 l).map Prod.fst).Pairwise (· < ·) :=
      List.pairwise_map.2 hpw0
    have h3 : ((withIdx 0 l).map Prod.fst).Nodup := h2.imp Nat.ne_of_lt
    exact ((sortAllP_perm lts (withIdx 0 l)).map Prod.fst).symm.nodup h3
  have heq : sortAllP lts (withIdx 0 l) = sortAllP lts (sortAllP lts (withIdx 0 l)) :=
    pairwise_perm_unique _ hanti _ _ hperm2.symm hY hYY2 hnodup
  calc sortAllT lts (sortAllT lts l)
      = sortAllT lts ((sortAllP lts (withIdx 0 l)).map Prod.snd) := by
        rw [sortAllP_map_snd, hsnd]
    _ = (sortAllP lts (sortAllP lts (withIdx 0 l))).map Prod.snd :=
        (sortAllP_map_snd lts _).symm
    _ = (sortAllP lts (withIdx 0 l)).map Prod.snd := by rw [← heq]
    _ = sortAllT lts ((withIdx 0 l).map Prod.snd) := sortAllP_map_snd lts _
    _ = sortAllT lts l := by rw [hsnd]

end CollectionViewModel

namespace CollectionViewModel

theorem viewState_eta_paged {T : Type} (s : ViewState T) (l : List T)
    (h : s.pagedView = some l) : { s with pagedView := some l } = s := by
  cases s; simp_all

theorem viewState_eta_filtered {T : Type} (s : ViewState T) (l : List T)
    (h : s.filteredView = some l) : { s with filteredView := some l } = s := by
  cases s; simp_all

theorem stagesOf_raiseChanged {T : Type} (s : ViewState T) :
    stagesOf (raiseChanged s) = stagesOf s := by
  simp [stagesOf]

theorem applyPaging_cases {T : Type} (s : ViewState T) :
    (s.suppressPaging = true ∧ applyPaging s = (s, none)) ∨
    (s.suppressPaging = false ∧ s.sortedView = none ∧
      applyPaging s = (s, some (JsError.typeError sliceUndefinedMessage))) ∨
    (∃ l, s.suppressPaging = false ∧ s.sortedView = some l ∧
      applyPaging s = (raiseChanged { s with pagedView := some (jsSlice l (s.pageIndex * s.pageSize) ((s.pageIndex + 1) * s.pageSize)) }, none)) := by
  cases hsp : s.suppressPaging with
  | true => exact Or.inl ⟨rfl, by simp [applyPaging, hsp]⟩
  | false =>
      cases hsv : s.sortedView with
      | none => exact Or.inr (Or.inl ⟨rfl, rfl, by simp [applyPaging, hsp, hsv]⟩)
      | some l => exact Or.inr (Or.inr ⟨l, rfl, rfl, by simp [applyPaging, hsp, hsv]⟩)

theorem applyPaging_fixed_point {T : Type} (s : ViewState T) (l : List T)
    (hsp : s.suppressPaging = false) (hsv : s.sortedView = some l)
    (hpg : s.pagedView = some (jsSlice l (s.pageIndex * s.pageSize) ((s.pageIndex + 1) * s.pageSize))) :
    applyPaging s = (raiseChanged s, none) := by
  have h1 : applyPaging s = (raiseChanged { s with pagedView := some (jsSlice l (s.pageIndex * s.pageSize) ((s.pageIndex + 1) * s.pageSize)) }, none) := by
    simp [applyPaging, hsp, hsv]
  rw [h1, viewState_eta_paged s _ hpg]

theorem applyPaging_post {T : Type} (s : ViewState T) :
    (applyPaging s).1.data = s.data ∧
    (applyPaging s).1.filteredView = s.filteredView ∧
    (applyPaging s).1.sortedView = s.sortedView ∧
    (applyPaging s).1.filters = s.filters ∧
    (applyPaging s).1.sorting = s.sorting ∧
    (applyPaging s).1.suppressFiltering = s.suppressFiltering ∧
    (applyPaging s).1.suppressSorting = s.suppressSorting ∧
    (applyPaging s).1.suppressPaging = s.suppressPaging ∧
    pageFixed (applyPaging s).1 := by
  rcases applyPaging_cases s with ⟨hsp, he⟩ | ⟨hsp, hsv, he⟩ | ⟨l, hsp, hsv, he⟩
  · rw [he]
    exact ⟨rfl, rfl, rfl, rfl, rfl, rfl, rfl, rfl, Or.inl hsp⟩
  · rw [he]
    exact ⟨rfl, rfl, rfl, rfl, rfl, rfl, rfl, rfl, Or.inr (Or.inl hsv)⟩
  · rw [he]
    refine ⟨by simp, by simp, by simp, by simp, by simp, by simp, by simp, by simp, ?_⟩
    refine Or.inr (Or.inr ⟨l, by simp [hsv], ?_⟩)
    simp

theorem applyPaging_stages_fixed {T : Type} (s : ViewState T) (hp : pageFixed s) :
    stagesOf (applyPaging s).1 = stagesOf s := by
  rcases applyPaging_cases s with ⟨hsp, he⟩ | ⟨hsp, hsv, he⟩ | ⟨l, hsp, hsv, he⟩
  · rw [he]
  · rw [he]
  · rcases hp with hp | hp | ⟨L, hL, hpg⟩
    · rw [hsp] at hp; exact absurd hp (by simp)
    · rw [hsv] at hp; exact absurd hp (by simp)
    · rw [hsv] at hL
      have hL2 : L = l := by injection hL.symm
      subst hL2
      rw [applyPaging_fixed_point s L hsp hsv hpg, stagesOf_raiseChanged]

end CollectionViewModel

namespace CollectionViewModel

theorem applySorting_cases {T : Type} (toStr : T → String) (s : ViewState T) :
    (s.suppressSorting = true ∧ applySorting toStr s = (s, none)) ∨
    (s.suppressSorting = false ∧ s.sortedView = none ∧ s.sorting = [] ∧
      applySorting toStr s = applyPaging s) ∨
    (s.suppressSorting = false ∧ s.sortedView = none ∧ s.sorting ≠ [] ∧
      applySorting toStr s = (s, some (JsError.typeError sortUndefinedMessage))) ∨
    (∃ l, s.suppressSorting = false ∧ s.sortedView = some l ∧
      applySorting toStr s =
        applyPaging { s with sortedView := some (sortAllT (s.sorting.map (descriptorLt toStr)) l) }) := by
  cases hss : s.suppressSorting with
  | true => exact Or.inl ⟨rfl, by simp [applySorting, hss]⟩
  | false =>
      cases hsv : s.sortedView with
      | none =>
          rcases hd : s.sorting with - | ⟨d, rest⟩
          · refine Or.inr (Or.inl ⟨rfl, rfl, rfl, ?_⟩)
            simp [applySorting, hss, hd, sortLoop, Step.andThen]
          · refine Or.inr (Or.inr (Or.inl ⟨rfl, rfl, by simp, ?_⟩))
            simp [applySorting, hss, hd, sortLoop, hsv, Step.andThen]
      | some l =>
          refine Or.inr (Or.inr (Or.inr ⟨l, rfl, rfl, ?_⟩))
          simp only [applySorting, hss, Bool.false_eq_true, if_false]
          rw [sortLoop_some toStr s.sorting s l hsv]
          simp only [Step.andThen]
          rw [hss]

theorem applySorting_post {T : Type} (toStr : T → String) (s : ViewState T)
    (hcons : ∀ d ∈ s.sorting, LtConsistent (descriptorLt toStr d)) :
    (applySorting toStr s).1.data = s.data ∧
    (applySorting toStr s).1.filteredView = s.filteredView ∧
    (applySorting toStr s).1.filters = s.filters ∧
    (applySorting toStr s).1.sorting = s.sorting ∧
    (applySorting toStr s).1.suppressFiltering = s.suppressFiltering ∧
    (applySorting toStr s).1.suppressSorting = s.suppressSorting ∧
    (applySorting toStr s).1.suppressPaging = s.suppressPaging ∧
    (s.suppressSorting = true ∨ sortFixed toStr (applySorting toStr s).1) ∧
    (s.suppressSorting = true ∨ pageFixed (applySorting toStr s).1) := by
  have hconsmap : ∀ lt ∈ s.sorting.map (descriptorLt toStr), LtConsistent lt := by
    intro lt hlt
    rcases List.mem_map.1 hlt with ⟨d, hd, rfl⟩
    exact hcons d hd
  rcases applySorting_cases toStr s with ⟨hss, he⟩ | ⟨hss, hsv, hd, he⟩ |
    ⟨hss, hsv, hd, he⟩ | ⟨l, hss, hsv, he⟩
  · rw [he]
    exact ⟨rfl, rfl, rfl, rfl, rfl, rfl, rfl, Or.inl hss, Or.inl hss⟩
  · rw [he]
    have hpost := applyPaging_post s
    refine ⟨hpost.1, hpost.2.1, hpost.2.2.2.1, hpost.2.2.2.2.1, hpost.2.2.2.2.2.1,
      hpost.2.2.2.2.2.2.1, hpost.2.2.2.2.2.2.2.1, ?_, Or.inr hpost.2.2.2.2.2.2.2.2⟩
    refine Or.inr (Or.inr (Or.inl ?_))
    rw [hpost.2.2.1, hsv]
  · rw [he]
    exact ⟨rfl, rfl, rfl, rfl, rfl, rfl, rfl,
      Or.inr (Or.inr (Or.inl hsv)), Or.inr (Or.inr (Or.inl hsv))⟩
  · rw [he]
    have hpost := applyPaging_post
      { s with sortedView := some (sortAllT (s.sorting.map (descriptorLt toStr)) l) }
    have hsort2 : (applyPaging
        { s with sortedView := some (sortAllT (s.sorting.map (descriptorLt toStr)) l) }).1.sorting =
        s.sorting := by
      have h1 := hpost.2.2.2.2.1
      simpa using h1
    have hsv2 : (applyPaging
        { s with sortedView := some (sortAllT (s.sorting.map (descriptorLt toStr)) l) }).1.sortedView =
        some (sortAllT (s.sorting.map (descriptorLt toStr)) l) := by
      have h1 := hpost.2.2.1
      simpa using h1
    refine ⟨by simpa using hpost.1, by simpa using hpost.2.1, by simpa using hpost.2.2.2.1,
      hsort2, by simpa using hpost.2.2.2.2.2.1,
      by simpa using hpost.2.2.2.2.2.2.1, by simpa using hpost.2.2.2.2.2.2.2.1, ?_,
      Or.inr hpost.2.2.2.2.2.2.2.2⟩
    refine Or.inr (Or.inr (Or.inr ⟨sortAllT (s.sorting.map (descriptorLt toStr)) l, hsv2, ?_⟩))
    rw [hsort2]
    exact sortAllT_idem (s.sorting.map (descriptorLt toStr)) hconsmap l

theorem applySorting_stages_fixed {T : Type} (toStr : T → String) (t : ViewState T)
    (hs : sortFixed toStr t) (hp : pageFixed t) :
    stagesOf (applySorting toStr t).1 = stagesOf t := by
  rcases applySorting_cases toStr t with ⟨hss, he⟩ | ⟨hss, hsv, hd, he⟩ |
    ⟨hss, hsv, hd, he⟩ | ⟨l, hss, hsv, he⟩
  · rw [he]
  · rw [he]
    exact applyPaging_stages_fixed t hp
  · rw [he]
  · rcases hs with hs | hs | ⟨L, hL, hfix⟩
    · rw [hss] at hs; exact absurd hs (by simp)
    · rw [hsv] at hs; exact absurd hs (by simp)
    · rw [hsv] at hL
      have hL2 : L = l := by injection hL.symm
      subst hL2
      rw [he, hfix, viewState_eta_sorted t L hsv]
      exact applyPaging_stages_fixed t hp

end CollectionViewModel

namespace CollectionViewModel

theorem sortFixed_transfer {T : Type} (toStr : T → String) (t t2 : ViewState T)
    (h1 : t2.suppressSorting = t.suppressSorting) (h2 : t2.sortedView = t.sortedView)
    (h3 : t2.sorting = t.sorting) (h : sortFixed toStr t) : sortFixed toStr t2 := by
  rcases h with h | h | ⟨L, hL, hfix⟩
  · exact Or.inl (by rw [h1, h])
  · exact Or.inr (Or.inl (by rw [h2, h]))
  · exact Or.inr (Or.inr ⟨L, by rw [h2, hL], by rw [h3]; exact hfix⟩)

theorem applyPaging_twice {T : Type} (s : ViewState T) :
    stagesOf (applyPaging (applyPaging s).1).1 = stagesOf (applyPaging s).1 :=
  applyPaging_stages_fixed (applyPaging s).1 (applyPaging_post s).2.2.2.2.2.2.2.2

theorem applySorting_twice {T : Type} (toStr : T → String) (s : ViewState T)
    (hcons : ∀ d ∈ s.sorting, LtConsistent (descriptorLt toStr d)) :
    stagesOf (applySorting toStr (applySorting toStr s).1).1 =
      stagesOf (applySorting toStr s).1 := by
  have hpost := applySorting_post toStr s hcons
  by_cases hss : s.suppressSorting = true
  · have he : applySorting toStr s = (s, none) := by simp [applySorting, hss]
    rw [he]
    show stagesOf (applySorting toStr s).1 = stagesOf s
    rw [he]
  · have hs2 : sortFixed toStr (applySorting toStr s).1 := by
      rcases hpost.2.2.2.2.2.2.2.1 with h | h
      · exact absurd h hss
      · exact h
    have hp2 : pageFixed (applySorting toStr s).1 := by
      rcases hpost.2.2.2.2.2.2.2.2 with h | h
      · exact absurd h hss
      · exact h
    exact applySorting_stages_fixed toStr _ hs2 hp2

theorem sortPagePipeline_stages_fixed {T : Type} (toStr : T → String) (t : ViewState T)
    (hs : sortFixed toStr t) (hp : pageFixed t) :
    stagesOf ((applySorting toStr t).andThen applyPaging).1 = stagesOf t := by
  rcases applySorting_cases toStr t with ⟨hss, he⟩ | ⟨hss, hsv, hd, he⟩ |
    ⟨hss, hsv, hd, he⟩ | ⟨l, hss, hsv, he⟩
  · rw [he]
    show stagesOf (applyPaging t).1 = stagesOf t
    exact applyPaging_stages_fixed t hp
  · rw [he]
    rcases applyPaging_cases t with ⟨hsp2, he2⟩ | ⟨hsp2, hsv2, he2⟩ | ⟨l2, hsp2, hsv2, he2⟩
    · rw [he2]
      show stagesOf (applyPaging t).1 = stagesOf t
      exact applyPaging_stages_fixed t hp
    · rw [he2]
      rfl
    · rw [hsv] at hsv2
      exact absurd hsv2 (by simp)
  · rw [he]
    rfl
  · rcases hs with h | h | ⟨L, hL, hfix⟩
    · rw [hss] at h; exact absurd h (by simp)
    · rw [hsv] at h; exact absurd h (by simp)
    · rw [hsv] at hL
      have hLl : L = l := by injection hL.symm
      subst hLl
      rw [he, hfix, viewState_eta_sorted t L hsv]
      rcases applyPaging_cases t with ⟨hsp2, he2⟩ | ⟨hsp2, hsv2, he2⟩ | ⟨l2, hsp2, hsv2, he2⟩
      · rw [he2]
        show stagesOf (applyPaging t).1 = stagesOf t
        exact applyPaging_stages_fixed t hp
      · rw [hsv] at hsv2
        exact absurd hsv2 (by simp)
      · rcases hp with h | h | ⟨L2, hL2, hpg⟩
        · rw [hsp2] at h; exact absurd h (by simp)
        · rw [hsv] at h; exact absurd h (by simp)
        · rw [hsv] at hL2
          have hL2l : L2 = L := by injection hL2.symm
          subst hL2l
          have hfp : applyPaging t = (raiseChanged t, none) :=
            applyPaging_fixed_point t L2 hsp2 hsv hpg
          rw [hfp]
          show stagesOf (applyPaging (raiseChanged t)).1 = stagesOf t
          have hfp2 : applyPaging (raiseChanged t) = (raiseChanged (raiseChanged t), none) := by
            apply applyPaging_fixed_point (raiseChanged t) L2
            · simp [hsp2]
            · simp [hsv]
            · simp [hpg]
          rw [hfp2]
          show stagesOf (raiseChanged (raiseChanged t)) = stagesOf t
          rw [stagesOf_raiseChanged, stagesOf_raiseChanged]

end CollectionViewModel

namespace CollectionViewModel

theorem applyFilters_post {T : Type} (toStr : T → String) (s : ViewState T)
    (hsf : s.suppressFiltering = false)
    (hcons : ∀ d ∈ s.sorting, LtConsistent (descriptorLt toStr d)) :
    (applyFilters toStr s).1.data = s.data ∧
    (applyFilters toStr s).1.filters = s.filters ∧
    (applyFilters toStr s).1.suppressFiltering = false ∧
    (applyFilters toStr s).1.filteredView = some (filterRun s.filters s.data) ∧
    sortFixed toStr (applyFilters toStr s).1 ∧
    pageFixed (applyFilters toStr s).1 := by
  have hAF : applyFilters toStr s =
      (applySorting toStr
        { s with filteredView := some (filterRun s.filters s.data) }).andThen applyPaging := by
    simp [applyFilters, hsf]
  have hcons1 : ∀ d ∈ ({ s with filteredView := some (filterRun s.filters s.data) } :
      ViewState T).sorting, LtConsistent (descriptorLt toStr d) := by
    intro d hd
    exact hcons d hd
  have hASpost := applySorting_post toStr
    { s with filteredView := some (filterRun s.filters s.data) } hcons1
  have hsfixw : sortFixed toStr
      (applySorting toStr { s with filteredView := some (filterRun s.filters s.data) }).1 := by
    rcases hASpost.2.2.2.2.2.2.2.1 with h | h
    · exact Or.inl (by rw [hASpost.2.2.2.2.2.1]; exact h)
    · exact h
  rcases he : applySorting toStr { s with filteredView := some (filterRun s.filters s.data) }
    with ⟨w, e⟩
  rw [he] at hASpost hsfixw
  cases e with
  | some err =>
      have hfinal : (applyFilters toStr s).1 = w := by
        rw [hAF, he]
        rfl
      have hpfixw : pageFixed w := by
        by_cases hss : ({ s with filteredView := some (filterRun s.filters s.data) } :
            ViewState T).suppressSorting = true
        · exfalso
          rcases applySorting_cases toStr
              { s with filteredView := some (filterRun s.filters s.data) } with
            ⟨h1, he2⟩ | ⟨h1, h2, h3, he2⟩ | ⟨h1, h2, h3, he2⟩ | ⟨l, h1, he2a, he2⟩
          · rw [he] at he2
            have := congrArg Prod.snd he2
            simp at this
          · rw [h1] at hss; exact absurd hss (by simp)
          · rw [h1] at hss; exact absurd hss (by simp)
          · rw [h1] at hss; exact absurd hss (by simp)
        · rcases hASpost.2.2.2.2.2.2.2.2 with h | h
          · exact absurd h hss
          · exact h
      rw [hfinal]
      refine ⟨by simpa using hASpost.1, by simpa using hASpost.2.2.1, ?_, ?_, hsfixw, hpfixw⟩
      · have h1 := hASpost.2.2.2.2.1
        simp only [] at h1
        rw [h1]
        exact hsf
      · have h1 := hASpost.2.1
        simpa using h1
  | none =>
      have hfinal : (applyFilters toStr s).1 = (applyPaging w).1 := by
        rw [hAF, he]
        rfl
      have hAPpost := applyPaging_post w
      rw [hfinal]
      refine ⟨?_, ?_, ?_, ?_, ?_, hAPpost.2.2.2.2.2.2.2.2⟩
      · rw [hAPpost.1]
        simpa using hASpost.1
      · rw [hAPpost.2.2.2.1]
        simpa using hASpost.2.2.1
      · rw [hAPpost.2.2.2.2.2.1]
        have h1 := hASpost.2.2.2.2.1
        simp only [] at h1
        rw [h1]
        exact hsf
      · rw [hAPpost.2.1]
        have h1 := hASpost.2.1
        simpa using h1
      · exact sortFixed_transfer toStr w (applyPaging w).1
          hAPpost.2.2.2.2.2.2.1 hAPpost.2.2.1 hAPpost.2.2.2.2.1 hsfixw

theorem applyFilters_twice {T : Type} (toStr : T → String) (s : ViewState T)
    (hcons : ∀ d ∈ s.sorting, LtConsistent (descriptorLt toStr d)) :
    stagesOf (applyFilters toStr (applyFilters toStr s).1).1 =
      stagesOf (applyFilters toStr s).1 := by
  by_cases hsf : s.suppressFiltering = true
  · have he : applyFilters toStr s = (s, none) := by simp [applyFilters, hsf]
    rw [he]
    show stagesOf (applyFilters toStr s).1 = stagesOf s
    rw [he]
  · have hsf2 : s.suppressFiltering = false := by simpa using hsf
    obtain ⟨h1, h2, h3, h4, h5, h6⟩ := applyFilters_post toStr s hsf2 hcons
    generalize hgen : (applyFilters toStr s).1 = t at h1 h2 h3 h4 h5 h6 ⊢
    have hAF2 : applyFilters toStr t = (applySorting toStr t).andThen applyPaging := by
      have h7 : filterRun t.filters t.data = filterRun s.filters s.data := by
        rw [h1, h2]
      have heta : { t with filteredView := some (filterRun t.filters t.data) } = t := by
        rw [h7]
        exact viewState_eta_filtered t _ h4
      simp only [applyFilters]
      rw [heta, h3]
      simp
    rw [hAF2]
    exact sortPagePipeline_stages_fixed toStr t h5 h6

end CollectionViewModel

namespace CollectionViewModel

/-- Claim C7: each of applyFilters, applySorting and applyPaging is
idempotent on the three stage contents: running the same recompute twice
in a row with no mutation in between leaves the filtered, sorted and
paged stages as after the first run.  For the sorting passes this needs
each registered comparator to be consistent in the ECMAScript sense
(asymmetric strict relation with transitive complement); the default
string comparison always is, and the claim covers error runs as well,
since a faulting pass leaves the stages untouched and faults identically
the second time. -/
theorem C7_stage_recomputes_idempotent {T : Type} (toStr : T → String) (s : ViewState T)
    (hcons : ∀ d ∈ s.sorting, LtConsistent (descriptorLt toStr d)) :
    stagesOf (applyFilters toStr (applyFilters toStr s).1).1 =
      stagesOf (applyFilters toStr s).1 ∧
    stagesOf (applySorting toStr (applySorting toStr s).1).1 =
      stagesOf (applySorting toStr s).1 ∧
    stagesOf (applyPaging (applyPaging s).1).1 = stagesOf (applyPaging s).1 :=
  ⟨applyFilters_twice toStr s hcons, applySorting_twice toStr s hcons,
    applyPaging_twice s⟩

/-- Witness for claim C7 on a concrete state with one comparer-built
descriptor (difference comparator on integers) and an assigned sorted
stage. -/
theorem C7_stage_recomputes_idempotent_witness :
    (∀ d ∈ c7seed.sorting, LtConsistent (descriptorLt intToStr d)) ∧
    (stagesOf (applyFilters intToStr (applyFilters intToStr c7seed).1).1 =
      stagesOf (applyFilters intToStr c7seed).1 ∧
    stagesOf (applySorting intToStr (applySorting intToStr c7seed).1).1 =
      stagesOf (applySorting intToStr c7seed).1 ∧
    stagesOf (applyPaging (applyPaging c7seed).1).1 = stagesOf (applyPaging c7seed).1) := by
  have hcons : ∀ d ∈ c7seed.sorting, LtConsistent (descriptorLt intToStr d) := by
    intro d hd
    have hd2 : d = { selector := none
                     comparer := some (fun a b : Int => a - b)
                     direction := SortDirection.Ascending
                     propertyComparer := none } := by
      simpa [c7seed, initState] using hd
    subst hd2
    constructor
    · intro a b h1
      simp only [descriptorLt, decide_eq_true_eq] at h1
      simp only [descriptorLt, decide_eq_false_iff_not]
      omega
    · intro a b c h1 h2
      simp only [descriptorLt, decide_eq_false_iff_not] at h1 h2 ⊢
      omega
  exact ⟨hcons, C7_stage_recomputes_idempotent intToStr c7seed hcons⟩

end CollectionViewModel
